import Mathlib

/-!
Verification development for the radish CfRadial1 radar-volume decoder.

The decoding core of the repository (the `radish._radish` extension module
exposing `VolumeData`, `VolumeMetadata`, `SweepData`, `MomentData`,
`read_cfradial1` and `scan_cfradial1`) is not shipped with the Python
sources; only its callers (the xarray backend, tests and examples) are.
The core is therefore modelled here from the specification (container
reader, convention mapper, metadata extractor, volume materializer),
while the xarray backend (`radish/backends/xarray_backend.py`) is embedded
directly from its source.

Numeric payloads are modelled as rational numbers: the specification's
decoding rule `v * scale + offset` and its exact-equality fill-value test
are exact arithmetic statements, which ℚ captures faithfully.
-/

namespace Radish

/-- Modelled from the spec: attribute values of the hierarchical container
are strings or numbers (§4.1 "top-level attribute names/values (strings,
numbers)"). -/
inductive AttrValue where
  | num (q : Rat)
  | str (s : String)
deriving DecidableEq

/-- Modelled from the spec: a variable of the hierarchical container, with
its declared dimensions, attributes, and payload (§4.1). The payload is a
flat row-major list; a 2-D variable over (ray, gate) stores ray `r`, gate
`g` at index `r * gates + g`. -/
structure NcVar where
  dims : List String
  attrs : List (String × AttrValue)
  data : List Rat
deriving DecidableEq

/-- Modelled from the spec: the attribute/dimension/variable catalog that
the Container Reader exposes for an opened CfRadial1 container (§4.1). -/
structure NcFile where
  attrs : List (String × AttrValue)
  dims : List (String × Nat)
  vars : List (String × NcVar)
deriving DecidableEq

/-- Modelled from the spec: the error taxonomy of §7. `notFound` and
`format` belong to the container-opening step, which is prior to the
catalog modelled here; `schema` names the missing required element;
`decode` names the offending variable and sweep index. -/
inductive RadishError where
  | notFound (path : String)
  | format (msg : String)
  | schema (element : String)
  | decode (varName : String) (sweepIdx : Nat)
deriving DecidableEq

/-- Modelled from the spec: `VolumeMetadata` (§3). -/
structure VolumeMetadata where
  instrument_name : String
  latitude : Rat
  longitude : Rat
  altitude : Rat
  num_sweeps : Nat
  sweep_fixed_angles : List Rat
deriving DecidableEq

/-- Modelled from the spec: `MomentData` (§3). The 2-D array is a list of
rays, each a list of gates; the reserved "no data" sentinel is `none`. -/
structure MomentData where
  name : String
  units : String
  data : List (List (Option Rat))
deriving DecidableEq

/-- Modelled from the spec: `SweepData` (§3). Moments are kept in file
order; the stored `name` of each `MomentData` is the mapping key. -/
structure SweepData where
  sweep_number : Nat
  fixed_angle : Rat
  num_rays : Nat
  num_gates : Nat
  azimuth : List Rat
  elevation : List Rat
  range : List Rat
  moments : List MomentData
deriving DecidableEq

/-- Modelled from the spec: `VolumeData` (§3). -/
structure VolumeData where
  sweeps : List SweepData
  metadata : VolumeMetadata
deriving DecidableEq

def VolumeData.num_sweeps (v : VolumeData) : Nat := v.sweeps.length

/-- Modelled from the spec: `VolumeData.get_sweep(i)` of the binding layer
(§6) — returns the `i`-th sweep, or absent on out-of-range `i`. -/
def VolumeData.get_sweep (v : VolumeData) (i : Int) : Option SweepData :=
  if h : 0 ≤ i ∧ i.toNat < v.sweeps.length then some (v.sweeps.get ⟨i.toNat, h.2⟩)
  else none

/-- Modelled from the spec: `SweepData.moment_names()` of the binding
layer (§6). -/
def SweepData.moment_names (s : SweepData) : List String :=
  s.moments.map MomentData.name

/-- Modelled from the spec: `SweepData.get_moment(name)` of the binding
layer (§6) — exact, case-sensitive string lookup. -/
def SweepData.get_moment (s : SweepData) (nm : String) : Option MomentData :=
  s.moments.find? (fun m => m.name == nm)

/-- Modelled from the spec: `MomentData.shape` accessor (§6). -/
def MomentData.shape (m : MomentData) : Nat × Nat :=
  (m.data.length, (m.data.headD []).length)

def findVar (f : NcFile) (nm : String) : Option NcVar :=
  (f.vars.find? (fun p => p.1 == nm)).map (fun p => p.2)

def findAttr (attrs : List (String × AttrValue)) (nm : String) : Option AttrValue :=
  (attrs.find? (fun p => p.1 == nm)).map (fun p => p.2)

def numAttr (attrs : List (String × AttrValue)) (nm : String) : Option Rat :=
  match findAttr attrs nm with
  | some (.num q) => some q
  | _ => none

def strAttr (attrs : List (String × AttrValue)) (nm : String) (dflt : String) : String :=
  match findAttr attrs nm with
  | some (.str s) => s
  | _ => dflt

/-- Modelled from the spec: a required CfRadial1 element that is absent
makes the Convention Mapper fail with `SchemaError` naming it (§4.2). -/
def requireVar (f : NcFile) (nm : String) : Except RadishError NcVar :=
  match findVar f nm with
  | some v => .ok v
  | none => .error (.schema nm)

/-- Modelled from the spec: one row of the sweep table of §4.2 — inclusive
start and end ray index into the flat ray dimension, plus the fixed
angle. -/
structure SweepEntry where
  startRay : Nat
  endRay : Nat
  angle : Rat
deriving DecidableEq

/-- Ray-index payloads are stored as (integral) numbers; this reads them
back as natural indices. -/
def ratIdx (q : Rat) : Nat := q.num.toNat

def zip3 {α β γ : Type} : List α → List β → List γ → List (α × β × γ)
  | a :: as, b :: bs, c :: cs => (a, b, c) :: zip3 as bs cs
  | _, _, _ => []

/-- Modelled from the spec: the Convention Mapper (§4.2). Fails with
`SchemaError` if the sweep start-ray / end-ray index variables, the range
coordinate variable, or the per-sweep fixed-angle variable is absent;
otherwise produces the sweep table. -/
def sweepTable (f : NcFile) : Except RadishError (List SweepEntry) := do
  let sv ← requireVar f "sweep_start_ray_index"
  let ev ← requireVar f "sweep_end_ray_index"
  let _ ← requireVar f "range"
  let av ← requireVar f "fixed_angle"
  .ok ((zip3 sv.data ev.data av.data).map (fun t => ⟨ratIdx t.1, ratIdx t.2.1, t.2.2⟩))

/-- Modelled from the spec: reserved coordinate names — a variable with one
of these names is a coordinate, never a moment (§4.2 tie-break policy). -/
def reservedNames : List String := ["time", "range", "azimuth", "elevation"]

/-- Modelled from the spec: the field catalog of §4.2 — variables that are
two-dimensional over (time/ray, range) and not reserved coordinates. -/
def momentVars (f : NcFile) : List (String × NcVar) :=
  f.vars.filter (fun p => p.2.dims == ["time", "range"] && !(reservedNames.contains p.1))

/-- Reads a scalar coordinate variable, defaulting to 0 when absent
(§4.3: "0.0 for missing coordinates"). -/
def scalarVar (f : NcFile) (nm : String) : Rat :=
  match findVar f nm with
  | some v => v.data.headD 0
  | none => 0

/-- Modelled from the spec: the Metadata Extractor (§4.3). Optional
attributes that are absent get documented defaults: empty string for
missing names, 0.0 for missing coordinates. -/
def extractMetadata (f : NcFile) (table : List SweepEntry) : VolumeMetadata :=
  { instrument_name := strAttr f.attrs "instrument_name" ""
  , latitude := scalarVar f "latitude"
  , longitude := scalarVar f "longitude"
  , altitude := scalarVar f "altitude"
  , num_sweeps := table.length
  , sweep_fixed_angles := table.map (fun e => e.angle) }

/-- Modelled from the spec: `scan(path)` (§6) — metadata-only summary. -/
def scan_cfradial1 (f : NcFile) : Except RadishError VolumeMetadata := do
  let t ← sweepTable f
  .ok (extractMetadata f t)

/-- Modelled from the spec: the numeric decoding rule of §4.4. If a fill
value is declared, a raw value exactly equal to it becomes the "no data"
sentinel; otherwise, if a scale factor and/or add-offset is declared, the
raw value `v` becomes `v * scale + offset` (absent scale defaults to 1,
absent offset to 0); with neither declared the raw value is the physical
value. -/
def decodeValue (scale offset fill : Option Rat) (raw : Rat) : Option Rat :=
  if fill = some raw then none
  else
    match scale, offset with
    | none, none => some raw
    | s, o => some (raw * s.getD 1 + o.getD 0)

def mapExcept {α β ε : Type} (g : α → Except ε β) : List α → Except ε (List β)
  | [] => .ok []
  | x :: xs => do
    let y ← g x
    let ys ← mapExcept g xs
    .ok (y :: ys)

/-- Modelled from the spec: slicing a ray-indexed coordinate variable to a
sweep's inclusive ray range (§4.4). A missing coordinate defaults to zeros
(§4.3 defaults); a declared payload shorter than the computed ray extent is
a `DecodeError` naming the variable and sweep (§4.4). -/
def sliceCoord (f : NcFile) (nm : String) (sweepIdx : Nat) (e : SweepEntry) :
    Except RadishError (List Rat) :=
  match findVar f nm with
  | none => .ok (List.replicate (e.endRay + 1 - e.startRay) 0)
  | some v =>
    if e.endRay + 1 ≤ v.data.length then
      .ok ((v.data.take (e.endRay + 1)).drop e.startRay)
    else .error (.decode nm sweepIdx)

/-- Modelled from the spec: decoding one moment's (ray-range, all-gates)
sub-array for one sweep (§4.4): shape check first (`DecodeError` on
mismatch), then pointwise application of the numeric decoding rule, with
units copied verbatim (empty string if absent). -/
def decodeMoment (sweepIdx : Nat) (e : SweepEntry) (numGates : Nat)
    (p : String × NcVar) : Except RadishError MomentData :=
  if (e.endRay + 1) * numGates ≤ p.2.data.length then
    .ok { name := p.1
        , units := strAttr p.2.attrs "units" ""
        , data := (List.range (e.endRay + 1 - e.startRay)).map (fun r =>
            (List.range numGates).map (fun g =>
              decodeValue (numAttr p.2.attrs "scale_factor")
                (numAttr p.2.attrs "add_offset")
                (numAttr p.2.attrs "_FillValue")
                (p.2.data.getD ((e.startRay + r) * numGates + g) 0))) }
  else .error (.decode p.1 sweepIdx)

/-- Modelled from the spec: assembling one `SweepData` (§4.4) — sliced
azimuth/elevation, the shared range coordinate, and every field of the
field catalog decoded over the sweep's ray range. -/
def buildSweep (f : NcFile) (rangeData : List Rat) (sweepIdx : Nat) (e : SweepEntry) :
    Except RadishError SweepData := do
  let az ← sliceCoord f "azimuth" sweepIdx e
  let el ← sliceCoord f "elevation" sweepIdx e
  let ms ← mapExcept (decodeMoment sweepIdx e rangeData.length) (momentVars f)
  .ok { sweep_number := sweepIdx
      , fixed_angle := e.angle
      , num_rays := e.endRay + 1 - e.startRay
      , num_gates := rangeData.length
      , azimuth := az
      , elevation := el
      , range := rangeData
      , moments := ms }

/-- Modelled from the spec: `read(path)` (§6) — Convention Mapper, then
Volume Materializer over every sweep-table row, then the enclosing
`VolumeData` with the same metadata the scan path produces. -/
def read_cfradial1 (f : NcFile) : Except RadishError VolumeData := do
  let t ← sweepTable f
  let rv ← requireVar f "range"
  let sweeps ← mapExcept (fun ie => buildSweep f rv.data ie.1 ie.2) t.enum
  .ok { sweeps := sweeps, metadata := extractMetadata f t }

/-- The four required CfRadial1 elements of §4.2 are all present. -/
def requiredPresent (f : NcFile) : Prop :=
  (findVar f "sweep_start_ray_index").isSome = true
  ∧ (findVar f "sweep_end_ray_index").isSome = true
  ∧ (findVar f "range").isSome = true
  ∧ (findVar f "fixed_angle").isSome = true

instance (f : NcFile) : Decidable (requiredPresent f) := by
  unfold requiredPresent; infer_instance

def RadishError.isSchema : RadishError → Bool
  | .schema _ => true
  | _ => false

def isSchemaFailure {α : Type} : Except RadishError α → Bool
  | .error e => e.isSchema
  | .ok _ => false

/-- Element access into a decoded 2-D moment array: ray `r`, gate `g`. -/
def matAt (m : List (List (Option Rat))) (r g : Nat) : Option Rat :=
  (m.getD r []).getD g none

/-! ### The xarray backend, embedded from
`src/python/radish/backends/xarray_backend.py`. -/

/-- Payload of an xarray variable: scalar, 1-D, or 2-D (decoded moments
carry the `none` sentinel). -/
inductive XrData where
  | scalar (x : Rat)
  | vec (xs : List Rat)
  | mat (m : List (List (Option Rat)))
deriving DecidableEq

/-- A labeled array of an xarray `Dataset`: dimension names, payload, and
string attributes. -/
structure XrVariable where
  dims : List String
  data : XrData
  attrs : List (String × String)
deriving DecidableEq

/-- An xarray `Dataset`: coordinates, data variables, and attributes. -/
structure XrDataset where
  coords : List (String × XrVariable)
  data_vars : List (String × XrVariable)
  attrs : List (String × AttrValue)
deriving DecidableEq

/-- `RadishBackendEntrypoint._create_root_dataset`: latitude, longitude
and altitude as coordinates, `sweep_fixed_angle` over the `sweep`
dimension, instrument name and conventions as attributes. -/
def create_root_dataset (md : VolumeMetadata) : XrDataset :=
  { coords := [ ("latitude", ⟨[], .scalar md.latitude, []⟩)
              , ("longitude", ⟨[], .scalar md.longitude, []⟩)
              , ("altitude", ⟨[], .scalar md.altitude, []⟩) ]
  , data_vars := [("sweep_fixed_angle", ⟨["sweep"], .vec md.sweep_fixed_angles, []⟩)]
  , attrs := [ ("instrument_name", .str md.instrument_name)
             , ("Conventions", .str "CF/Radial") ] }

/-- `RadishBackendEntrypoint._sweep_to_dataset`: azimuth/elevation over
`time` and range over `range` as coordinates; for each name in
`moment_names()`, `get_moment` is consulted and, when present, the moment
becomes a `(time, range)` data variable with its units attribute. -/
def sweep_to_dataset (s : SweepData) (md : VolumeMetadata) : XrDataset :=
  { coords := [ ("azimuth", ⟨["time"], .vec s.azimuth, []⟩)
              , ("elevation", ⟨["time"], .vec s.elevation, []⟩)
              , ("range", ⟨["range"], .vec s.range, []⟩) ]
  , data_vars := s.moment_names.filterMap (fun nm =>
      (s.get_moment nm).map (fun m =>
        (nm, ⟨["time", "range"], .mat m.data, [("units", m.units)]⟩)))
  , attrs := [ ("sweep_number", .num s.sweep_number)
             , ("fixed_angle", .num s.fixed_angle)
             , ("instrument_name", .str md.instrument_name) ] }

def mapOption {α β : Type} (g : α → Option β) : List α → Option (List β)
  | [] => some []
  | x :: xs => do
    let y ← g x
    let ys ← mapOption g xs
    some (y :: ys)

/-- `RadishBackendEntrypoint.open_dataset`: read the volume, take sweep 0
via `get_sweep(0)`, and convert that single sweep. A read error or an
absent sweep 0 is a raised Python exception, modelled as `none`. -/
def open_dataset (f : NcFile) : Option XrDataset :=
  match read_cfradial1 f with
  | .error _ => none
  | .ok vol => (vol.get_sweep 0).map (fun s => sweep_to_dataset s vol.metadata)

/-- `RadishBackendEntrypoint.open_datatree`: read the volume, put the root
dataset at `"/"`, and for each `i` in `range(num_sweeps)` put the dataset
of `get_sweep(i)` at `"/sweep_i"`. A raised exception is modelled as
`none`. -/
def open_datatree (f : NcFile) : Option (List (String × XrDataset)) :=
  match read_cfradial1 f with
  | .error _ => none
  | .ok vol =>
    (mapOption (fun i =>
        (vol.get_sweep (Int.ofNat i)).map (fun s =>
          ("/sweep_" ++ toString i, sweep_to_dataset s vol.metadata)))
      (List.range vol.num_sweeps)).map
      (fun sweepNodes => ("/", create_root_dataset vol.metadata) :: sweepNodes)

/-- Argument of `guess_can_open`: either an object whose `str()` succeeds
(carrying the resulting path string), or one whose string conversion
raises `TypeError` or `AttributeError`. -/
inductive PyObject where
  | path (s : String)
  | strRaisesTypeError
  | strRaisesAttrError
deriving DecidableEq

/-- Python's `str.endswith` for a single suffix. -/
def pyEndsWith (s suffix : String) : Bool := suffix.data.isSuffixOf s.data

/-- `RadishBackendEntrypoint.guess_can_open`: convert the argument to a
string and test the `.nc` / `.nc4` / `.netcdf` extensions; a `TypeError`
or `AttributeError` from the conversion is caught and yields `False`. -/
def guess_can_open : PyObject → Bool
  | .path s => pyEndsWith s ".nc" || pyEndsWith s ".nc4" || pyEndsWith s ".netcdf"
  | .strRaisesTypeError => false
  | .strRaisesAttrError => false

/-! ### Concrete fixtures used by the witness theorems. -/

/-- A small well-formed CfRadial1 catalog: one sweep over rays 0..1, two
gates, one moment `DBZ` with fill value `-32768` and units `dBZ`. -/
def wFile : NcFile :=
  { attrs := [("instrument_name", .str "KTLX")]
  , dims := [("time", 2), ("range", 2), ("sweep", 1)]
  , vars :=
    [ ("sweep_start_ray_index", ⟨["sweep"], [], [0]⟩)
    , ("sweep_end_ray_index", ⟨["sweep"], [], [1]⟩)
    , ("fixed_angle", ⟨["sweep"], [], [5]⟩)
    , ("range", ⟨["range"], [], [100, 200]⟩)
    , ("azimuth", ⟨["time"], [], [10, 20]⟩)
    , ("elevation", ⟨["time"], [], [1, 2]⟩)
    , ("DBZ", ⟨["time", "range"],
        [("_FillValue", .num (-32768)), ("units", .str "dBZ")],
        [7, -32768, 8, 9]⟩) ] }

/-- The moment `wFile` decodes for `DBZ`: the raw `-32768` is the
sentinel, the others pass through (no scale/offset declared). -/
def wMoment : MomentData :=
  { name := "DBZ", units := "dBZ", data := [[some 7, none], [some 8, some 9]] }

/-- The single sweep decoded from `wFile`. -/
def wSweep : SweepData :=
  { sweep_number := 0, fixed_angle := 5, num_rays := 2, num_gates := 2
  , azimuth := [10, 20], elevation := [1, 2], range := [100, 200]
  , moments := [wMoment] }

/-- The volume decoded from `wFile`. -/
def wVol : VolumeData :=
  { sweeps := [wSweep]
  , metadata := { instrument_name := "KTLX", latitude := 0, longitude := 0
                , altitude := 0, num_sweeps := 1, sweep_fixed_angles := [5] } }

/-- `wFile` with a second sweep (rays 2..3) appended; the first sweep's
rays and the instrument are unchanged. -/
def wFile2 : NcFile :=
  { attrs := [("instrument_name", .str "KTLX")]
  , dims := [("time", 4), ("range", 2), ("sweep", 2)]
  , vars :=
    [ ("sweep_start_ray_index", ⟨["sweep"], [], [0, 2]⟩)
    , ("sweep_end_ray_index", ⟨["sweep"], [], [1, 3]⟩)
    , ("fixed_angle", ⟨["sweep"], [], [5, 6]⟩)
    , ("range", ⟨["range"], [], [100, 200]⟩)
    , ("azimuth", ⟨["time"], [], [10, 20, 30, 40]⟩)
    , ("elevation", ⟨["time"], [], [1, 2, 3, 4]⟩)
    , ("DBZ", ⟨["time", "range"],
        [("_FillValue", .num (-32768)), ("units", .str "dBZ")],
        [7, -32768, 8, 9, 11, 12, -32768, 13]⟩) ] }

/-- The second sweep decoded from `wFile2`. -/
def wSweepB : SweepData :=
  { sweep_number := 1, fixed_angle := 6, num_rays := 2, num_gates := 2
  , azimuth := [30, 40], elevation := [3, 4], range := [100, 200]
  , moments := [{ name := "DBZ", units := "dBZ"
                , data := [[some 11, some 12], [none, some 13]] }] }

/-- The volume decoded from `wFile2`. -/
def wVol2 : VolumeData :=
  { sweeps := [wSweep, wSweepB]
  , metadata := { instrument_name := "KTLX", latitude := 0, longitude := 0
                , altitude := 0, num_sweeps := 2, sweep_fixed_angles := [5, 6] } }

/-- `wFile` with the sweep end-ray-index variable removed. -/
def wFileNoEnd : NcFile :=
  { attrs := wFile.attrs
  , dims := wFile.dims
  , vars := wFile.vars.filter (fun p => !(p.1 == "sweep_end_ray_index")) }

/-- A catalog holding only the four required variables: no instrument
name, no site coordinates, no moments. -/
def wFileBare : NcFile :=
  { attrs := []
  , dims := [("time", 1), ("range", 1), ("sweep", 1)]
  , vars :=
    [ ("sweep_start_ray_index", ⟨["sweep"], [], [0]⟩)
    , ("sweep_end_ray_index", ⟨["sweep"], [], [0]⟩)
    , ("fixed_angle", ⟨["sweep"], [], [3]⟩)
    , ("range", ⟨["range"], [], [100]⟩) ] }

/-- A sweep whose only moment is named `DBZH` (not `DBZ`). -/
def wSweepH : SweepData :=
  { sweep_number := 0, fixed_angle := 1, num_rays := 1, num_gates := 1
  , azimuth := [0], elevation := [0], range := [50]
  , moments := [{ name := "DBZH", units := "dBZ", data := [[some 3]] }] }

/-! ### Helper lemmas. -/

theorem mapExcept_ok_length {α β ε : Type} {g : α → Except ε β} {xs : List α} {ys : List β}
    (h : mapExcept g xs = .ok ys) : ys.length = xs.length := by
  induction xs generalizing ys with
  | nil => simp [mapExcept] at h; simp [← h]
  | cons x xs ih =>
    simp only [mapExcept, bind, Except.bind] at h
    cases hg : g x with
    | error e => rw [hg] at h; simp at h
    | ok y =>
      rw [hg] at h
      cases hm : mapExcept g xs with
      | error e => rw [hm] at h; simp at h
      | ok ys' =>
        rw [hm] at h
        simp at h
        subst h
        simp [ih hm]

theorem mapExcept_ok_get {α β ε : Type} {g : α → Except ε β} {xs : List α} {ys : List β}
    (h : mapExcept g xs = .ok ys) :
    ∀ i (h1 : i < xs.length) (h2 : i < ys.length), g xs[i] = .ok ys[i] := by
  induction xs generalizing ys with
  | nil => intro i h1; simp at h1
  | cons x xs ih =>
    simp only [mapExcept, bind, Except.bind] at h
    cases hg : g x with
    | error e => rw [hg] at h; simp at h
    | ok y =>
      rw [hg] at h
      cases hm : mapExcept g xs with
      | error e => rw [hm] at h; simp at h
      | ok ys' =>
        rw [hm] at h
        simp at h
        subst h
        intro i h1 h2
        cases i with
        | zero => simpa using hg
        | succ j =>
          simp only [List.getElem_cons_succ]
          exact ih hm j (by simpa using h1) (by simpa using h2)

theorem mapExcept_ok_mem {α β ε : Type} {g : α → Except ε β} {xs : List α} {ys : List β}
    (h : mapExcept g xs = .ok ys) : ∀ y ∈ ys, ∃ x ∈ xs, g x = .ok y := by
  induction xs generalizing ys with
  | nil =>
    simp [mapExcept] at h
    subst h
    simp
  | cons x xs ih =>
    simp only [mapExcept, bind, Except.bind] at h
    split at h
    · simp at h
    · rename_i y hg
      split at h
      · simp at h
      · rename_i ys' hm
        simp at h
        subst h
        intro z hz
        rcases List.mem_cons.mp hz with hz | hz
        · exact ⟨x, List.mem_cons_self x xs, by rw [hg, hz]⟩
        · rcases ih hm z hz with ⟨x', hx', hgx'⟩
          exact ⟨x', List.mem_cons_of_mem x hx', hgx'⟩

theorem mapExcept_error_mem {α β ε : Type} {g : α → Except ε β} {xs : List α} {e : ε}
    (h : mapExcept g xs = .error e) : ∃ x ∈ xs, g x = .error e := by
  induction xs with
  | nil => simp [mapExcept] at h
  | cons x xs ih =>
    simp only [mapExcept, bind, Except.bind] at h
    split at h
    · rename_i e' hg
      simp at h
      subst h
      exact ⟨x, List.mem_cons_self x xs, hg⟩
    · rename_i y hg
      split at h
      · rename_i e' hm
        simp at h
        subst h
        rcases ih hm with ⟨x', hx', hgx'⟩
        exact ⟨x', List.mem_cons_of_mem x hx', hgx'⟩
      · simp at h

theorem mapOption_eq_map {α β : Type} {g : α → Option β} {hf : α → β} {xs : List α}
    (h : ∀ a ∈ xs, g a = some (hf a)) : mapOption g xs = some (xs.map hf) := by
  induction xs with
  | nil => simp [mapOption]
  | cons x xs ih =>
    simp only [mapOption, bind, Option.bind]
    rw [h x (List.mem_cons_self x xs), ih (fun a ha => h a (List.mem_cons_of_mem x ha))]
    simp

theorem sliceCoord_ok_length {f : NcFile} {nm : String} {i : Nat} {e : SweepEntry}
    {xs : List Rat} (h : sliceCoord f nm i e = .ok xs) :
    xs.length = e.endRay + 1 - e.startRay := by
  unfold sliceCoord at h
  split at h
  · simp at h
    subst h
    simp
  · rename_i v hv
    split at h
    · rename_i hb
      simp at h
      subst h
      simp
      omega
    · simp at h

theorem sliceCoord_error_decode {f : NcFile} {nm : String} {i : Nat} {e : SweepEntry}
    {err : RadishError} (h : sliceCoord f nm i e = .error err) : err = .decode nm i := by
  unfold sliceCoord at h
  split at h
  · simp at h
  · rename_i v hv
    split at h
    · simp at h
    · simp at h
      exact h.symm

theorem decodeMoment_ok {i : Nat} {e : SweepEntry} {ng : Nat} {p : String × NcVar}
    {m : MomentData} (h : decodeMoment i e ng p = .ok m) :
    m.name = p.1 ∧ m.units = strAttr p.2.attrs "units" ""
    ∧ m.data.length = e.endRay + 1 - e.startRay
    ∧ (∀ row ∈ m.data, row.length = ng)
    ∧ (∀ r g, r < e.endRay + 1 - e.startRay → g < ng →
        matAt m.data r g = decodeValue (numAttr p.2.attrs "scale_factor")
          (numAttr p.2.attrs "add_offset") (numAttr p.2.attrs "_FillValue")
          (p.2.data.getD ((e.startRay + r) * ng + g) 0)) := by
  unfold decodeMoment at h
  by_cases hb : (e.endRay + 1) * ng ≤ p.2.data.length
  · rw [if_pos hb] at h
    simp at h
    subst h
    refine ⟨rfl, rfl, by simp, ?_, ?_⟩
    · intro row hrow
      rcases List.mem_map.mp hrow with ⟨r, _, hr⟩
      simp [← hr]
    · intro r g hr hg
      simp [matAt, List.getD, List.getElem?_map, List.getElem?_range, hr, hg]
  · rw [if_neg hb] at h
    simp at h

theorem decodeMoment_error_decode {i : Nat} {e : SweepEntry} {ng : Nat}
    {p : String × NcVar} {err : RadishError} (h : decodeMoment i e ng p = .error err) :
    err = .decode p.1 i := by
  unfold decodeMoment at h
  by_cases hb : (e.endRay + 1) * ng ≤ p.2.data.length
  · rw [if_pos hb] at h; simp at h
  · rw [if_neg hb] at h
    exact (Except.error.inj h).symm

theorem buildSweep_ok {f : NcFile} {rd : List Rat} {i : Nat} {e : SweepEntry}
    {s : SweepData} (h : buildSweep f rd i e = .ok s) :
    s.sweep_number = i ∧ s.fixed_angle = e.angle
    ∧ s.num_rays = e.endRay + 1 - e.startRay ∧ s.num_gates = rd.length
    ∧ s.range = rd
    ∧ s.azimuth.length = s.num_rays ∧ s.elevation.length = s.num_rays
    ∧ mapExcept (decodeMoment i e rd.length) (momentVars f) = .ok s.moments := by
  simp only [buildSweep, bind, Except.bind] at h
  split at h
  · simp at h
  · rename_i az haz
    split at h
    · simp at h
    · rename_i el hel
      split at h
      · simp at h
      · rename_i ms hms
        simp at h
        subst h
        refine ⟨rfl, rfl, rfl, rfl, rfl, sliceCoord_ok_length haz,
          sliceCoord_ok_length hel, ?_⟩
        simpa using hms

theorem buildSweep_error_decode {f : NcFile} {rd : List Rat} {i : Nat} {e : SweepEntry}
    {err : RadishError} (h : buildSweep f rd i e = .error err) :
    ∃ nm j, err = .decode nm j := by
  simp only [buildSweep, bind, Except.bind] at h
  cases haz : sliceCoord f "azimuth" i e with
  | error e' =>
    rw [haz] at h
    exact ⟨"azimuth", i, by rw [← (Except.error.inj h)]; exact sliceCoord_error_decode haz⟩
  | ok az =>
    rw [haz] at h
    cases hel : sliceCoord f "elevation" i e with
    | error e' =>
      rw [hel] at h
      exact ⟨"elevation", i, by rw [← (Except.error.inj h)]; exact sliceCoord_error_decode hel⟩
    | ok el =>
      rw [hel] at h
      cases hms : mapExcept (decodeMoment i e rd.length) (momentVars f) with
      | error e' =>
        rw [hms] at h
        rcases mapExcept_error_mem hms with ⟨p, _, hp⟩
        exact ⟨p.1, i, by rw [← (Except.error.inj h)]; exact decodeMoment_error_decode hp⟩
      | ok ms => rw [hms] at h; simp at h

theorem read_ok_elim {f : NcFile} {vol : VolumeData}
    (h : read_cfradial1 f = .ok vol) :
    ∃ t rv, sweepTable f = .ok t ∧ requireVar f "range" = .ok rv
    ∧ mapExcept (fun ie => buildSweep f rv.data ie.1 ie.2) t.enum = .ok vol.sweeps
    ∧ vol.metadata = extractMetadata f t := by
  simp only [read_cfradial1, bind, Except.bind] at h
  split at h
  · simp at h
  · rename_i t ht
    split at h
    · simp at h
    · rename_i rv hrv
      split at h
      · simp at h
      · rename_i sweeps hms
        simp at h
        exact ⟨t, rv, ht, hrv, by rw [← h]; simpa using hms, by rw [← h]⟩

theorem sweepTable_ok_of_required {f : NcFile} (h : requiredPresent f) :
    ∃ t, sweepTable f = .ok t := by
  obtain ⟨h1, h2, h3, h4⟩ := h
  rcases Option.isSome_iff_exists.mp h1 with ⟨sv, hsv⟩
  rcases Option.isSome_iff_exists.mp h2 with ⟨ev, hev⟩
  rcases Option.isSome_iff_exists.mp h3 with ⟨rv, hrv⟩
  rcases Option.isSome_iff_exists.mp h4 with ⟨av, hav⟩
  refine ⟨(zip3 sv.data ev.data av.data).map
    (fun t => ⟨ratIdx t.1, ratIdx t.2.1, t.2.2⟩), ?_⟩
  simp [sweepTable, requireVar, hsv, hev, hrv, hav, bind, Except.bind]

theorem sweepTable_schema_of_missing {f : NcFile} (h : ¬ requiredPresent f) :
    ∃ nm, sweepTable f = .error (.schema nm) ∧ findVar f nm = none := by
  by_cases h1 : (findVar f "sweep_start_ray_index").isSome = true
  · rcases Option.isSome_iff_exists.mp h1 with ⟨sv, hsv⟩
    by_cases h2 : (findVar f "sweep_end_ray_index").isSome = true
    · rcases Option.isSome_iff_exists.mp h2 with ⟨ev, hev⟩
      by_cases h3 : (findVar f "range").isSome = true
      · rcases Option.isSome_iff_exists.mp h3 with ⟨rv, hrv⟩
        by_cases h4 : (findVar f "fixed_angle").isSome = true
        · exact absurd ⟨h1, h2, h3, h4⟩ h
        · refine ⟨"fixed_angle", ?_, Option.not_isSome_iff_eq_none.mp h4⟩
          have hav := Option.not_isSome_iff_eq_none.mp h4
          simp [sweepTable, requireVar, hsv, hev, hrv, hav, bind, Except.bind]
      · refine ⟨"range", ?_, Option.not_isSome_iff_eq_none.mp h3⟩
        have hrv := Option.not_isSome_iff_eq_none.mp h3
        simp [sweepTable, requireVar, hsv, hev, hrv, bind, Except.bind]
    · refine ⟨"sweep_end_ray_index", ?_, Option.not_isSome_iff_eq_none.mp h2⟩
      have hev := Option.not_isSome_iff_eq_none.mp h2
      simp [sweepTable, requireVar, hsv, hev, bind, Except.bind]
  · refine ⟨"sweep_start_ray_index", ?_, Option.not_isSome_iff_eq_none.mp h1⟩
    have hsv := Option.not_isSome_iff_eq_none.mp h1
    simp [sweepTable, requireVar, hsv, bind, Except.bind]

theorem scan_of_table_ok {f : NcFile} {t : List SweepEntry} (h : sweepTable f = .ok t) :
    scan_cfradial1 f = .ok (extractMetadata f t) := by
  simp [scan_cfradial1, bind, Except.bind, h]

theorem scan_of_table_error {f : NcFile} {e : RadishError} (h : sweepTable f = .error e) :
    scan_cfradial1 f = .error e := by
  simp [scan_cfradial1, bind, Except.bind, h]

theorem read_of_table_error {f : NcFile} {e : RadishError} (h : sweepTable f = .error e) :
    read_cfradial1 f = .error e := by
  simp [read_cfradial1, bind, Except.bind, h]

theorem read_not_schema_of_required {f : NcFile} (h : requiredPresent f) :
    isSchemaFailure (read_cfradial1 f) = false := by
  obtain ⟨t, ht⟩ := sweepTable_ok_of_required h
  obtain ⟨-, -, h3, -⟩ := h
  rcases Option.isSome_iff_exists.mp h3 with ⟨rv, hrv⟩
  have hreq : requireVar f "range" = .ok rv := by simp [requireVar, hrv]
  simp only [read_cfradial1, bind, Except.bind, ht, hreq]
  cases hms : mapExcept (fun ie => buildSweep f rv.data ie.1 ie.2) t.enum with
  | ok sweeps => simp [isSchemaFailure]
  | error e =>
    rcases mapExcept_error_mem hms with ⟨ie, -, hie⟩
    rcases buildSweep_error_decode hie with ⟨nm, j, hnm⟩
    simp [isSchemaFailure, hnm, RadishError.isSchema]

theorem get_sweep_of_neg {v : VolumeData} {i : Int}
    (h : i < 0 ∨ (v.num_sweeps : Int) ≤ i) : v.get_sweep i = none := by
  unfold VolumeData.get_sweep
  rw [dif_neg]
  rintro ⟨h0, hlt⟩
  unfold VolumeData.num_sweeps at h
  omega

theorem get_sweep_of_nonneg {v : VolumeData} {i : Int} (h0 : 0 ≤ i) :
    v.get_sweep i = v.sweeps[i.toNat]? := by
  unfold VolumeData.get_sweep
  by_cases hlt : i.toNat < v.sweeps.length
  · rw [dif_pos ⟨h0, hlt⟩, List.getElem?_eq_getElem hlt]
    rfl
  · rw [dif_neg (fun hc => hlt hc.2), List.getElem?_eq_none (le_of_not_lt hlt)]

theorem filterMap_congr_mem {α β : Type} {l : List α} {g k : α → Option β}
    (h : ∀ a ∈ l, g a = k a) : l.filterMap g = l.filterMap k := by
  induction l with
  | nil => rfl
  | cons x xs ih =>
    simp only [List.filterMap_cons, h x (List.mem_cons_self x xs)]
    rw [ih (fun a ha => h a (List.mem_cons_of_mem x ha))]

theorem get_moment_over_names {α : Type} (ms : List MomentData)
    (k : String → MomentData → α) (h : (ms.map MomentData.name).Nodup) :
    (ms.map MomentData.name).filterMap (fun nm =>
        (ms.find? (fun m => m.name == nm)).map (k nm))
      = ms.map (fun m => k m.name m) := by
  induction ms with
  | nil => rfl
  | cons m rest ih =>
    rw [List.map_cons, List.nodup_cons] at h
    have hpos : (m :: rest).find? (fun x => x.name == m.name) = some m :=
      List.find?_cons_of_pos _ (by simp)
    simp only [List.map_cons, List.filterMap_cons, hpos, Option.map_some']
    have hstep : (rest.map MomentData.name).filterMap (fun nm =>
        ((m :: rest).find? (fun x => x.name == nm)).map (k nm))
        = (rest.map MomentData.name).filterMap (fun nm =>
            (rest.find? (fun x => x.name == nm)).map (k nm)) := by
      refine filterMap_congr_mem (fun nm hnm => ?_)
      have hne : m.name ≠ nm := fun hc => h.1 (hc ▸ hnm)
      rw [List.find?_cons_of_neg _ (by simp [hne])]
    rw [hstep, ih h.2]

/-! ### Claim theorems. -/

/-- C6: for every `VolumeData` and integer index `i` with `i < 0` or
`i ≥ num_sweeps`, `get_sweep i` is the explicit absent value `none` — it
never crashes and never wraps the index around: a nonnegative index reads
exactly position `i` of the sweep sequence. -/
theorem claim_C6 (vol : VolumeData) (i : Int) :
    ((i < 0 ∨ (vol.num_sweeps : Int) ≤ i) → vol.get_sweep i = none)
    ∧ (0 ≤ i → vol.get_sweep i = vol.sweeps[i.toNat]?) :=
  ⟨fun h => get_sweep_of_neg h, fun h0 => get_sweep_of_nonneg h0⟩

/-- C6 witness: on the concrete decoded volume `wVol` (one sweep), both
index −1 and index 5 give the absent value. -/
theorem claim_C6_witness :
    wVol.get_sweep (-1) = none ∧ wVol.get_sweep 5 = none :=
  ⟨(claim_C6 wVol (-1)).1 (Or.inl (by decide)),
   (claim_C6 wVol 5).1 (Or.inr (by decide))⟩

/-- C7: `read` is deterministic as a two-run property: two reads of the
same unmodified catalog produce equal volumes — in particular identical
`VolumeMetadata` and bitwise-identical decoded moment arrays. -/
theorem claim_C7 (f : NcFile) (v1 v2 : VolumeData)
    (h1 : read_cfradial1 f = .ok v1) (h2 : read_cfradial1 f = .ok v2) :
    v1 = v2 ∧ v1.metadata = v2.metadata
    ∧ v1.sweeps.map (fun s => s.moments.map MomentData.data)
        = v2.sweeps.map (fun s => s.moments.map MomentData.data) := by
  have hv : v1 = v2 := Except.ok.inj (h1.symm.trans h2)
  exact ⟨hv, by rw [hv], by rw [hv]⟩

/-- C7 witness: two reads of the concrete catalog `wFile`. -/
theorem claim_C7_witness :
    wVol = wVol ∧ wVol.metadata = wVol.metadata
    ∧ wVol.sweeps.map (fun s => s.moments.map MomentData.data)
        = wVol.sweeps.map (fun s => s.moments.map MomentData.data) :=
  claim_C7 wFile wVol wVol rfl rfl

/-- C8: `get_moment` is an exact, case-sensitive string lookup: a hit is a
stored moment whose name equals the argument character for character, any
name equal to no stored name gives the explicit absent value, and no alias
resolution happens in the core — on a sweep holding only "DBZH", looking
up "DBZ" or "dbzh" is absent while "DBZH" hits. -/
theorem claim_C8 :
    (∀ (s : SweepData) (nm : String) (m : MomentData),
        s.get_moment nm = some m → m ∈ s.moments ∧ m.name = nm)
    ∧ (∀ (s : SweepData) (nm : String),
        (∀ m ∈ s.moments, m.name ≠ nm) → s.get_moment nm = none)
    ∧ wSweepH.get_moment "DBZ" = none
    ∧ wSweepH.get_moment "dbzh" = none
    ∧ wSweepH.get_moment "DBZH"
        = some { name := "DBZH", units := "dBZ", data := [[some 3]] } := by
  refine ⟨?_, ?_, by decide, by decide, by decide⟩
  · intro s nm m hm
    refine ⟨List.mem_of_find?_eq_some hm, ?_⟩
    simpa using List.find?_some hm
  · intro s nm h
    apply List.find?_eq_none.mpr
    intro m hm
    simpa using h m hm

/-- C8 witness: the generic clauses applied at the concrete sweep
`wSweepH`: the "DBZH" hit is a stored moment with exactly that name, and a
name matching no stored moment is absent. -/
theorem claim_C8_witness :
    (({ name := "DBZH", units := "dBZ", data := [[some 3]] } : MomentData) ∈ wSweepH.moments
      ∧ ({ name := "DBZH", units := "dBZ", data := [[some 3]] } : MomentData).name = "DBZH")
    ∧ wSweepH.get_moment "ZDR" = none :=
  ⟨claim_C8.1 wSweepH "DBZH" _ (by decide),
   claim_C8.2.1 wSweepH "ZDR" (by decide)⟩

/-- C10: `guess_can_open` is total and content-blind: it is `true` exactly
when the argument's string form ends with ".nc", ".nc4" or ".netcdf"; an
argument whose string conversion raises `TypeError` or `AttributeError`
yields `false`. It consults no file existence or contents (its argument
carries none). -/
theorem claim_C10 (o : PyObject) :
    (guess_can_open o = true ↔ ∃ s, o = PyObject.path s ∧
      (".nc".data <:+ s.data ∨ ".nc4".data <:+ s.data ∨ ".netcdf".data <:+ s.data))
    ∧ guess_can_open PyObject.strRaisesTypeError = false
    ∧ guess_can_open PyObject.strRaisesAttrError = false := by
  refine ⟨?_, rfl, rfl⟩
  cases o with
  | path s =>
    simp only [guess_can_open, pyEndsWith, Bool.or_eq_true,
      List.isSuffixOf_iff_suffix, PyObject.path.injEq, exists_eq_left']
    tauto
  | strRaisesTypeError => simp [guess_can_open]
  | strRaisesAttrError => simp [guess_can_open]

/-- C2: in every decoded volume, every sweep carries per-ray azimuth and
elevation sequences of length `num_rays`, and every moment it owns has
shape exactly `(num_rays, num_gates)`. -/
theorem claim_C2 (f : NcFile) (vol : VolumeData) (h : read_cfradial1 f = .ok vol) :
    ∀ s ∈ vol.sweeps, s.azimuth.length = s.num_rays ∧ s.elevation.length = s.num_rays
    ∧ ∀ m ∈ s.moments, m.data.length = s.num_rays
        ∧ ∀ row ∈ m.data, row.length = s.num_gates := by
  rcases read_ok_elim h with ⟨t, rv, ht, hrv, hms, hmd⟩
  intro s hs
  rcases mapExcept_ok_mem hms s hs with ⟨ie, hie, hbs⟩
  obtain ⟨-, -, hrays, hgates, -, haz, hel, hmom⟩ := buildSweep_ok hbs
  refine ⟨haz, hel, ?_⟩
  intro m hm
  rcases mapExcept_ok_mem hmom m hm with ⟨p, hp, hdm⟩
  obtain ⟨-, -, hlen, hrow, -⟩ := decodeMoment_ok hdm
  exact ⟨by rw [hlen, hrays], fun row hrowm => by rw [hrow row hrowm, hgates]⟩

/-- C2 witness: the generic invariant applied at the concrete decoded
volume `wVol` and its sweep `wSweep`. -/
theorem claim_C2_witness :
    wSweep.azimuth.length = wSweep.num_rays
    ∧ wSweep.elevation.length = wSweep.num_rays
    ∧ ∀ m ∈ wSweep.moments, m.data.length = wSweep.num_rays
        ∧ ∀ row ∈ m.data, row.length = wSweep.num_gates :=
  claim_C2 wFile wVol rfl wSweep (by decide)

/-- C3: the metadata-only scan agrees with the full read: whenever `read`
succeeds, `scan` succeeds with exactly the volume's metadata, whose sweep
count equals the number of decoded sweeps and whose fixed-angle sequence
is the ordered sequence of the decoded sweeps' fixed angles. -/
theorem claim_C3 (f : NcFile) (vol : VolumeData) (h : read_cfradial1 f = .ok vol) :
    scan_cfradial1 f = .ok vol.metadata
    ∧ vol.metadata.num_sweeps = vol.num_sweeps
    ∧ vol.metadata.sweep_fixed_angles = vol.sweeps.map SweepData.fixed_angle := by
  rcases read_ok_elim h with ⟨t, rv, ht, hrv, hms, hmd⟩
  have hlen : vol.sweeps.length = t.length := by
    simpa using mapExcept_ok_length hms
  refine ⟨by rw [hmd]; exact scan_of_table_ok ht, ?_, ?_⟩
  · rw [hmd]
    simp [extractMetadata, VolumeData.num_sweeps, hlen]
  · rw [hmd]
    simp only [extractMetadata]
    refine List.ext_getElem (by simp [hlen]) ?_
    intro i h1 h2
    have hi_t : i < t.length := by simpa using h1
    have hi_s : i < vol.sweeps.length := by simpa using h2
    have hi_e : i < t.enum.length := by simpa using hi_t
    have hg := mapExcept_ok_get hms i hi_e hi_s
    have henum : t.enum[i] = (i, t[i]) := List.getElem_enum t i hi_e
    rw [henum] at hg
    obtain ⟨-, hang, -⟩ := buildSweep_ok hg
    simp only [List.getElem_map]
    exact hang.symm

/-- C3 witness: scan and read agree on the concrete catalog `wFile`. -/
theorem claim_C3_witness :
    scan_cfradial1 wFile = .ok wVol.metadata
    ∧ wVol.metadata.num_sweeps = wVol.num_sweeps
    ∧ wVol.metadata.sweep_fixed_angles = wVol.sweeps.map SweepData.fixed_angle :=
  claim_C3 wFile wVol rfl

/-- C1: the numeric decoding rule of every moment decoded by `read`: with
scale and offset declared, a raw value `v` distinct from the fill value
decodes to `v * scale + offset`; with a fill value declared, a raw value
exactly equal to it decodes to the "no data" sentinel (`none`), never to a
number; every cell of every decoded moment is the decode of the
corresponding raw cell of its source variable; and concretely, with scale
0.01 and fill −32768, raw 500 decodes to 5 and raw −32768 to the
sentinel. -/
theorem claim_C1 :
    (∀ scale offset fill raw : Rat, raw ≠ fill →
        decodeValue (some scale) (some offset) (some fill) raw
          = some (raw * scale + offset))
    ∧ (∀ (scale offset : Option Rat) (fill raw : Rat), raw = fill →
        decodeValue scale offset (some fill) raw = none)
    ∧ (∀ (f : NcFile) (vol : VolumeData), read_cfradial1 f = .ok vol →
        ∀ s ∈ vol.sweeps, ∀ m ∈ s.moments,
          ∃ p ∈ momentVars f, ∃ startRay : Nat, m.name = p.1 ∧
            ∀ r g, r < s.num_rays → g < s.num_gates →
              matAt m.data r g = decodeValue (numAttr p.2.attrs "scale_factor")
                (numAttr p.2.attrs "add_offset") (numAttr p.2.attrs "_FillValue")
                (p.2.data.getD ((startRay + r) * s.num_gates + g) 0))
    ∧ decodeValue (some (1/100)) none (some (-32768)) 500 = some 5
    ∧ decodeValue (some (1/100)) none (some (-32768)) (-32768) = none := by
  refine ⟨?_, ?_, ?_, ?_, ?_⟩
  · intro scale offset fill raw h
    have hne : ¬ (some fill = some raw) := by simpa using fun hh => h hh.symm
    simp [decodeValue, hne]
  · intro scale offset fill raw h
    subst h
    simp [decodeValue]
  · intro f vol h s hs m hm
    rcases read_ok_elim h with ⟨t, rv, ht, hrv, hms, hmd⟩
    rcases mapExcept_ok_mem hms s hs with ⟨ie, hie, hbs⟩
    obtain ⟨-, -, hrays, hgates, -, -, -, hmom⟩ := buildSweep_ok hbs
    rcases mapExcept_ok_mem hmom m hm with ⟨p, hp, hdm⟩
    obtain ⟨hname, -, -, -, hptw⟩ := decodeMoment_ok hdm
    refine ⟨p, hp, ie.2.startRay, hname, ?_⟩
    intro r g hr hg
    rw [hrays] at hr
    rw [hgates] at hg
    rw [hgates]
    exact hptw r g hr hg
  · norm_num [decodeValue]
  · norm_num [decodeValue]

/-- C1 witness: the decode rule applied at concrete values and at the
concrete decoded volume `wVol` (moment `wMoment` of sweep `wSweep`). -/
theorem claim_C1_witness :
    decodeValue (some 2) (some 3) (some (-1)) 10 = some (10 * 2 + 3)
    ∧ decodeValue (some 2) (some 3) (some 7) 7 = none
    ∧ (∃ p ∈ momentVars wFile, ∃ startRay : Nat, wMoment.name = p.1 ∧
        ∀ r g, r < wSweep.num_rays → g < wSweep.num_gates →
          matAt wMoment.data r g = decodeValue (numAttr p.2.attrs "scale_factor")
            (numAttr p.2.attrs "add_offset") (numAttr p.2.attrs "_FillValue")
            (p.2.data.getD ((startRay + r) * wSweep.num_gates + g) 0)) :=
  ⟨claim_C1.1 2 3 (-1) 10 (by decide),
   claim_C1.2.1 (some 2) (some 3) 7 7 rfl,
   claim_C1.2.2.1 wFile wVol rfl wSweep (by decide) wMoment (by decide)⟩

/-- C4: `read` and `scan` fail with a schema error exactly when one of the
required CfRadial1 elements (sweep start-ray index, sweep end-ray index,
range coordinate, fixed-angle variable) is absent; in particular a catalog
missing the sweep end-ray-index variable makes `read` fail with
`SchemaError` naming it, while a catalog with only the required variables
scans successfully with the documented defaults (empty instrument name,
zero coordinates) substituted for the absent optional attributes. -/
theorem claim_C4 :
    (∀ f : NcFile, isSchemaFailure (scan_cfradial1 f) = true ↔ ¬ requiredPresent f)
    ∧ (∀ f : NcFile, isSchemaFailure (read_cfradial1 f) = true ↔ ¬ requiredPresent f)
    ∧ read_cfradial1 wFileNoEnd = .error (.schema "sweep_end_ray_index")
    ∧ scan_cfradial1 wFileBare
        = .ok { instrument_name := "", latitude := 0, longitude := 0, altitude := 0
              , num_sweeps := 1, sweep_fixed_angles := [3] } := by
  refine ⟨?_, ?_, rfl, rfl⟩
  · intro f
    constructor
    · intro hsf hreq
      obtain ⟨t, ht⟩ := sweepTable_ok_of_required hreq
      rw [scan_of_table_ok ht] at hsf
      simp [isSchemaFailure] at hsf
    · intro hnreq
      obtain ⟨nm, hnm, -⟩ := sweepTable_schema_of_missing hnreq
      rw [scan_of_table_error hnm]
      simp [isSchemaFailure, RadishError.isSchema]
  · intro f
    constructor
    · intro hsf hreq
      rw [read_not_schema_of_required hreq] at hsf
      simp at hsf
    · intro hnreq
      obtain ⟨nm, hnm, -⟩ := sweepTable_schema_of_missing hnreq
      rw [read_of_table_error hnm]
      simp [isSchemaFailure, RadishError.isSchema]

/-- C9: `open_dataset` is built exclusively from sweep index 0: for every
input it converts exactly `get_sweep(0)` of the decoded volume, and two
decoded volumes agreeing on sweep 0 and the instrument name yield the same
dataset no matter what their remaining sweeps hold — data of sweeps
1..num_sweeps−1 never appears in the result. -/
theorem claim_C9 :
    (∀ (f : NcFile) (vol : VolumeData), read_cfradial1 f = .ok vol →
        open_dataset f = (vol.get_sweep 0).map (fun s => sweep_to_dataset s vol.metadata))
    ∧ (∀ (f1 f2 : NcFile) (v1 v2 : VolumeData),
        read_cfradial1 f1 = .ok v1 → read_cfradial1 f2 = .ok v2 →
        v1.metadata.instrument_name = v2.metadata.instrument_name →
        v1.get_sweep 0 = v2.get_sweep 0 →
        open_dataset f1 = open_dataset f2) := by
  have hbase : ∀ (f : NcFile) (vol : VolumeData), read_cfradial1 f = .ok vol →
      open_dataset f = (vol.get_sweep 0).map (fun s => sweep_to_dataset s vol.metadata) := by
    intro f vol h
    simp [open_dataset, h]
  refine ⟨hbase, ?_⟩
  intro f1 f2 v1 v2 h1 h2 hinstr hsw
  rw [hbase f1 v1 h1, hbase f2 v2 h2, hsw]
  cases hv : v2.get_sweep 0 with
  | none => simp
  | some s =>
    simp only [Option.map_some']
    congr 1
    unfold sweep_to_dataset
    rw [hinstr]

/-- C9 witness: on the concrete catalogs `wFile` (one sweep) and `wFile2`
(two sweeps, same first sweep and instrument), `open_dataset` converts
sweep 0 and gives the same dataset for both. -/
theorem claim_C9_witness :
    open_dataset wFile = (wVol.get_sweep 0).map (fun s => sweep_to_dataset s wVol.metadata)
    ∧ open_dataset wFile = open_dataset wFile2 :=
  ⟨claim_C9.1 wFile wVol rfl,
   claim_C9.2 wFile wFile2 wVol wVol2 rfl rfl rfl (by decide)⟩

/-- C5: `open_datatree` consumes exactly the decoded data model and does
no decoding itself: it emits one root node at "/" carrying the volume
metadata — latitude/longitude/altitude as coordinates, the instrument
name as an attribute, the fixed angles as an array over the sweep
dimension — and, for each sweep index `i` below `num_sweeps`, one child
node "/sweep_i" carrying that sweep's azimuth, elevation and range
coordinate arrays and one labeled (time, range) array per moment with its
units attribute. -/
theorem claim_C5 (f : NcFile) (vol : VolumeData) (h : read_cfradial1 f = .ok vol)
    (hnames : ∀ s ∈ vol.sweeps, (s.moments.map MomentData.name).Nodup) :
    ∃ sweepNodes,
      open_datatree f = some (("/", create_root_dataset vol.metadata) :: sweepNodes)
      ∧ sweepNodes.length = vol.num_sweeps
      ∧ (∀ i (hi : i < vol.num_sweeps),
          sweepNodes[i]? = some ("/sweep_" ++ toString i,
            sweep_to_dataset (vol.sweeps.get ⟨i, hi⟩) vol.metadata))
      ∧ (create_root_dataset vol.metadata).coords
          = [ ("latitude", ⟨[], .scalar vol.metadata.latitude, []⟩)
            , ("longitude", ⟨[], .scalar vol.metadata.longitude, []⟩)
            , ("altitude", ⟨[], .scalar vol.metadata.altitude, []⟩) ]
      ∧ (create_root_dataset vol.metadata).data_vars
          = [("sweep_fixed_angle", ⟨["sweep"], .vec vol.metadata.sweep_fixed_angles, []⟩)]
      ∧ ("instrument_name", .str vol.metadata.instrument_name)
          ∈ (create_root_dataset vol.metadata).attrs
      ∧ (∀ s ∈ vol.sweeps,
          (sweep_to_dataset s vol.metadata).coords
            = [ ("azimuth", ⟨["time"], .vec s.azimuth, []⟩)
              , ("elevation", ⟨["time"], .vec s.elevation, []⟩)
              , ("range", ⟨["range"], .vec s.range, []⟩) ]
          ∧ (sweep_to_dataset s vol.metadata).data_vars
              = s.moments.map (fun m =>
                  (m.name, ⟨["time", "range"], .mat m.data, [("units", m.units)]⟩))) := by
  refine ⟨(List.range vol.num_sweeps).map (fun i =>
      ("/sweep_" ++ toString i,
        sweep_to_dataset ((vol.sweeps[i]?).getD ⟨0, 0, 0, 0, [], [], [], []⟩) vol.metadata)),
    ?_, by simp, ?_, rfl, rfl, by simp [create_root_dataset], ?_⟩
  · have hmap := @mapOption_eq_map Nat (String × XrDataset)
      (fun i : Nat =>
        (vol.get_sweep (Int.ofNat i)).map
          (fun s => ("/sweep_" ++ toString i, sweep_to_dataset s vol.metadata)))
      (fun i =>
        ("/sweep_" ++ toString i,
          sweep_to_dataset ((vol.sweeps[i]?).getD ⟨0, 0, 0, 0, [], [], [], []⟩) vol.metadata))
      (List.range vol.num_sweeps) ?_
    · simp only [open_datatree, h, hmap, Option.map_some']
    · intro a ha
      have halt : a < vol.sweeps.length := by
        simpa [VolumeData.num_sweeps] using List.mem_range.mp ha
      have hget : vol.get_sweep (Int.ofNat a) = vol.sweeps[a]? := by
        rw [get_sweep_of_nonneg (show (0 : Int) ≤ Int.ofNat a from Int.ofNat_zero_le a)]
        simp
      simp only [hget, List.getElem?_eq_getElem halt, Option.map_some', Option.getD_some]
  · intro i hi
    have hilen : i < vol.sweeps.length := hi
    rw [List.getElem?_map, List.getElem?_range (show i < vol.num_sweeps from hi)]
    simp only [Option.map_some', List.getElem?_eq_getElem hilen, Option.getD_some]
    rfl
  · intro s hs
    refine ⟨rfl, ?_⟩
    exact get_moment_over_names s.moments
      (fun nm m => (nm, XrVariable.mk ["time", "range"] (.mat m.data) [("units", m.units)]))
      (hnames s hs)

/-- C5 witness: the full node-list characterization at the concrete
two-sweep catalog `wFile2`. -/
theorem claim_C5_witness :
    ∃ sweepNodes,
      open_datatree wFile2 = some (("/", create_root_dataset wVol2.metadata) :: sweepNodes)
      ∧ sweepNodes.length = wVol2.num_sweeps
      ∧ (∀ i (hi : i < wVol2.num_sweeps),
          sweepNodes[i]? = some ("/sweep_" ++ toString i,
            sweep_to_dataset (wVol2.sweeps.get ⟨i, hi⟩) wVol2.metadata))
      ∧ (create_root_dataset wVol2.metadata).coords
          = [ ("latitude", ⟨[], .scalar wVol2.metadata.latitude, []⟩)
            , ("longitude", ⟨[], .scalar wVol2.metadata.longitude, []⟩)
            , ("altitude", ⟨[], .scalar wVol2.metadata.altitude, []⟩) ]
      ∧ (create_root_dataset wVol2.metadata).data_vars
          = [("sweep_fixed_angle", ⟨["sweep"], .vec wVol2.metadata.sweep_fixed_angles, []⟩)]
      ∧ ("instrument_name", .str wVol2.metadata.instrument_name)
          ∈ (create_root_dataset wVol2.metadata).attrs
      ∧ (∀ s ∈ wVol2.sweeps,
          (sweep_to_dataset s wVol2.metadata).coords
            = [ ("azimuth", ⟨["time"], .vec s.azimuth, []⟩)
              , ("elevation", ⟨["time"], .vec s.elevation, []⟩)
              , ("range", ⟨["range"], .vec s.range, []⟩) ]
          ∧ (sweep_to_dataset s wVol2.metadata).data_vars
              = s.moments.map (fun m =>
                  (m.name, ⟨["time", "range"], .mat m.data, [("units", m.units)]⟩))) :=
  claim_C5 wFile2 wVol2 rfl (by decide)

end Radish
